import Mathlib

/-!
Verification of the AQI forecast dashboard's normalization pipeline
(src/main.py).  The Python source is shallowly embedded below: pandas
DataFrames become lists of rows, timestamps become integer epoch seconds,
raw numeric AQI cells (after `pd.to_numeric(..., errors="coerce")`) become
`Option Rat` with `none` standing for NaN, and missing timestamps (NaT)
become `none`.
-/

namespace AqiDashboard

/-- Embeds `aqi_category` (src/main.py, lines 86-98): a chain of `<=`
comparisons mapping an integer AQI to one of six labels.  The Python
function performs no range check: any integer gets a label. -/
def aqi_category (aqi : Int) : String :=
  if aqi ≤ 50 then "Good"
  else if aqi ≤ 100 then "Moderate"
  else if aqi ≤ 150 then "Unhealthy for Sensitive Groups"
  else if aqi ≤ 200 then "Unhealthy"
  else if aqi ≤ 300 then "Very Unhealthy"
  else "Hazardous"

/-- Embeds `aqi_color` (src/main.py, lines 100-112). -/
def aqi_color (aqi : Int) : String :=
  if aqi ≤ 50 then "#00E400"
  else if aqi ≤ 100 then "#FFFF00"
  else if aqi ≤ 150 then "#FF7E00"
  else if aqi ≤ 200 then "#FF0000"
  else if aqi ≤ 300 then "#8F3F97"
  else "#7E0023"

/-- Ordinal severity of the six category labels, used to state
monotonicity of the classifier. -/
def catSeverity (c : String) : Nat :=
  if c = "Good" then 0
  else if c = "Moderate" then 1
  else if c = "Unhealthy for Sensitive Groups" then 2
  else if c = "Unhealthy" then 3
  else if c = "Very Unhealthy" then 4
  else 5

/-- The six category labels in severity order. -/
def categoryLabels : List String :=
  ["Good", "Moderate", "Unhealthy for Sensitive Groups", "Unhealthy",
   "Very Unhealthy", "Hazardous"]

lemma catSeverity_aqi_category (v : Int) :
    catSeverity (aqi_category v) =
      if v ≤ 50 then 0 else if v ≤ 100 then 1 else if v ≤ 150 then 2
      else if v ≤ 200 then 3 else if v ≤ 300 then 4 else 5 := by
  unfold aqi_category catSeverity
  split_ifs <;> simp_all

/-- C1: on [0,500] the classifier returns exactly one of the six labels,
each interval of the fixed breakpoint table maps to its label, the severity
is monotone non-decreasing in the AQI value, and the spot checks at
50/51/300/301 hold. -/
theorem aqi_category_contract (v w : Int) (hv0 : 0 ≤ v) (hv5 : v ≤ 500)
    (hvw : v ≤ w) :
    aqi_category v ∈ categoryLabels ∧
    (v ≤ 50 ↔ aqi_category v = "Good") ∧
    ((51 ≤ v ∧ v ≤ 100) ↔ aqi_category v = "Moderate") ∧
    ((101 ≤ v ∧ v ≤ 150) ↔ aqi_category v = "Unhealthy for Sensitive Groups") ∧
    ((151 ≤ v ∧ v ≤ 200) ↔ aqi_category v = "Unhealthy") ∧
    ((201 ≤ v ∧ v ≤ 300) ↔ aqi_category v = "Very Unhealthy") ∧
    (301 ≤ v ↔ aqi_category v = "Hazardous") ∧
    catSeverity (aqi_category v) ≤ catSeverity (aqi_category w) ∧
    (aqi_category 50 = "Good" ∧ aqi_category 51 = "Moderate" ∧
     aqi_category 300 = "Very Unhealthy" ∧ aqi_category 301 = "Hazardous") := by
  refine ⟨?_, ?_, ?_, ?_, ?_, ?_, ?_, ?_, by decide⟩
  · unfold aqi_category categoryLabels
    split_ifs <;> simp
  all_goals try
    (unfold aqi_category; split_ifs <;> constructor <;> intro h <;> simp_all <;> omega)
  · rw [catSeverity_aqi_category, catSeverity_aqi_category]
    split_ifs <;> omega

/-- Witness for C1 at the 50/51 breakpoint. -/
theorem aqi_category_contract_witness :
    catSeverity (aqi_category 50) ≤ catSeverity (aqi_category 51) :=
  (aqi_category_contract 50 51 (by decide) (by decide) (by decide)).2.2.2.2.2.2.2.1

/-- C3 counterexample: out-of-range AQI values do not fail; the classifier
returns a category.  `aqi_category (-1)` is "Good" and `aqi_category 501`
is "Hazardous", both members of the six labels, so no RangeError-style
failure occurs. -/
theorem aqi_category_no_range_error :
    aqi_category (-1) = "Good" ∧ aqi_category 501 = "Hazardous" ∧
    aqi_category (-1) ∈ categoryLabels ∧ aqi_category 501 ∈ categoryLabels := by
  decide

/-- C3 amended: for v < 0 the classifier returns "Good" (the `<= 50`
branch) and for v > 500 it returns "Hazardous"; no range check, failure or
explicit clamping is performed. -/
theorem aqi_category_out_of_range (v : Int) :
    (v < 0 → aqi_category v = "Good") ∧ (500 < v → aqi_category v = "Hazardous") := by
  unfold aqi_category
  constructor <;> intro h <;> split_ifs <;> first | rfl | omega

/-- Witness for the amended C3 at v = -1 and v = 501. -/
theorem aqi_category_out_of_range_witness :
    aqi_category (-1) = "Good" ∧ aqi_category 501 = "Hazardous" :=
  ⟨(aqi_category_out_of_range (-1)).1 (by decide),
   (aqi_category_out_of_range 501).2 (by decide)⟩

/-- A timezone-aware pandas timestamp: an absolute instant (epoch seconds)
together with the display offset (seconds east of UTC) of its timezone. -/
structure TzTimestamp where
  instant : Int
  offset : Int
deriving Repr, DecidableEq

/-- Embeds pandas `Series.dt.tz_convert` (src/main.py, line 242): the
absolute instant is kept, only the display offset changes. -/
def tz_convert (t : TzTimestamp) (newOffset : Int) : TzTimestamp :=
  { instant := t.instant, offset := newOffset }

/-- Wall-clock reading of a timezone-aware timestamp. -/
def wallClock (t : TzTimestamp) : Int := t.instant + t.offset

/-- Recover the UTC instant from a wall-clock reading and its offset. -/
def utcInstant (t : TzTimestamp) : Int := wallClock t - t.offset

/-- Display offset of Asia/Karachi (PKT, UTC+5, no DST) in seconds. -/
def pktOffset : Int := 5 * 3600

/-- A row of the DataFrame after column canonicalization and datetime
parsing: the raw AQI cell after `pd.to_numeric(..., errors="coerce")`
(`none` = NaN), and the two timestamp columns (`none` = NaT), instants in
epoch seconds UTC. -/
structure CanonRow where
  aqi_raw : Option Rat
  forecast_date_utc : Option Int
  prediction_time : Option Int
deriving Repr, DecidableEq

/-- A fully processed row as built by src/main.py lines 264-268:
integer AQI, derived category and color, and the PKT projection of the
forecast time (line 242). -/
structure ForecastRow where
  us_aqi : Int
  category : String
  color : String
  forecast_date_utc : Option Int
  forecast_date_pkt : Option Int
  prediction_time : Option Int
deriving Repr, DecidableEq

/-- Round half to even on exact rationals, the rounding of pandas
`Series.round()` (numpy banker's rounding), used at src/main.py line 266. -/
def roundHalfEven (q : Rat) : Int :=
  if q - ⌊q⌋ < 1/2 then ⌊q⌋
  else if 1/2 < q - ⌊q⌋ then ⌊q⌋ + 1
  else if ⌊q⌋ % 2 = 0 then ⌊q⌋ else ⌊q⌋ + 1

/-- Embeds `pd.to_numeric(..., errors="coerce").fillna(0).round().astype(int)`
(src/main.py, line 266): a NaN AQI cell silently becomes 0, a numeric cell
is rounded to the nearest integer (half to even). -/
def normalizeAqi (x : Option Rat) : Int :=
  match x with
  | none => 0
  | some q => roundHalfEven q

/-- Maximum of a list of instants (pandas `Series.max()` over the non-NaN
entries; `none` when there is none). -/
def maxOfList : List Int → Option Int
  | [] => none
  | x :: xs =>
    match maxOfList xs with
    | none => some x
    | some m => some (max x m)

/-- The non-NaT prediction-run times of a row-set. -/
def validRunTimes (rows : List CanonRow) : List Int :=
  rows.filterMap (fun r => r.prediction_time)

/-- `df['prediction_time'].max()` over the row-set (skipping NaT). -/
def latestRunTime (rows : List CanonRow) : Option Int :=
  maxOfList (validRunTimes rows)

/-- Embeds the latest-run selection (src/main.py, lines 250-256): when at
least one prediction time is present, keep exactly the rows equal to the
maximum; otherwise keep the whole row-set. -/
def latestRunSelect (rows : List CanonRow) : List CanonRow :=
  match latestRunTime rows with
  | none => rows
  | some m => rows.filter (fun r => r.prediction_time == some m)

/-- Ordering used by `sort_values('forecast_date_utc')`: NaT sorts last
(pandas default `na_position='last'`). -/
def utcKeyLe : Option Int → Option Int → Bool
  | some a, some b => a ≤ b
  | some _, none => true
  | none, some _ => false
  | none, none => true

/-- Insert a row into a sorted list (insertion step of the sort at
src/main.py, line 260). -/
def insertRow (r : CanonRow) : List CanonRow → List CanonRow
  | [] => [r]
  | s :: rest =>
    if utcKeyLe r.forecast_date_utc s.forecast_date_utc then r :: s :: rest
    else s :: insertRow r rest

/-- Embeds `sort_values('forecast_date_utc')` (src/main.py, line 260) as an
insertion sort on the forecast-time key. -/
def sortByUtc : List CanonRow → List CanonRow
  | [] => []
  | r :: rest => insertRow r (sortByUtc rest)

/-- Row processing of src/main.py lines 242 and 264-268: project the UTC
instant to PKT (a pure `tz_convert`, instant preserved), normalize the AQI
cell and attach category and color. -/
def processRow (r : CanonRow) : ForecastRow :=
  let a := normalizeAqi r.aqi_raw
  { us_aqi := a
    category := aqi_category a
    color := aqi_color a
    forecast_date_utc := r.forecast_date_utc
    forecast_date_pkt :=
      r.forecast_date_utc.map (fun t => (tz_convert ⟨t, 0⟩ pktOffset).instant)
    prediction_time := r.prediction_time }

/-- The normalization pipeline of src/main.py lines 250-268: latest-run
selection, sort by forecast time, then AQI normalization and
categorization. -/
def normalizeSeries (rows : List CanonRow) : List ForecastRow :=
  ((sortByUtc (latestRunSelect rows)).map processRow)

/-- C2 counterexample: a row whose AQI cell is NaN (missing or unparseable)
flows through the pipeline with no failure, its AQI silently substituted
with 0 and classified "Good". -/
theorem missing_aqi_becomes_good :
    normalizeSeries [⟨none, some 0, some 0⟩] =
      [⟨0, "Good", "#00E400", some 0, some 0, some 0⟩] := by
  decide

/-- C2 amended: for every row whose AQI cell is missing or unparseable
(NaN after coercion), the pipeline substitutes AQI 0 via `fillna(0)` and
classifies it as "Good"; no failure result is surfaced for that value. -/
theorem missing_aqi_substituted (r : CanonRow) (h : r.aqi_raw = none) :
    normalizeAqi r.aqi_raw = 0 ∧
    (processRow r).us_aqi = 0 ∧ (processRow r).category = "Good" := by
  simp [normalizeAqi, processRow, h, aqi_category]

/-- Witness for the amended C2 on a concrete NaN row. -/
theorem missing_aqi_substituted_witness :
    normalizeAqi (CanonRow.mk none none none).aqi_raw = 0 ∧
    (processRow (CanonRow.mk none none none)).us_aqi = 0 ∧
    (processRow (CanonRow.mk none none none)).category = "Good" :=
  missing_aqi_substituted (CanonRow.mk none none none) rfl

/-- C8: `tz_convert` is a pure re-projection: converting a UTC timestamp to
the PKT display timezone and back to UTC yields the original instant
exactly, the instant itself is never changed, the wall clock shifts by
exactly the display offset, and the pipeline's local column carries the
same instant as the UTC column. -/
theorem tz_convert_roundtrip (t : TzTimestamp) (r : CanonRow) :
    (tz_convert (tz_convert t pktOffset) 0).instant = t.instant ∧
    (tz_convert t pktOffset).instant = t.instant ∧
    utcInstant (tz_convert t pktOffset) = t.instant ∧
    wallClock (tz_convert t pktOffset) = t.instant + pktOffset ∧
    (processRow r).forecast_date_pkt = r.forecast_date_utc := by
  refine ⟨rfl, rfl, ?_, rfl, ?_⟩
  · simp [utcInstant, wallClock, tz_convert]
  · cases h : r.forecast_date_utc <;> simp [processRow, tz_convert, h]

/-- The end-to-end scenario input: one run at 2024-01-01T00:00:00Z
(epoch 1704067200) with three rows carrying raw AQI floats 151.6, 45.4 and
500.0, given out of forecast-time order. -/
def scenarioRows : List CanonRow :=
  [⟨some (758 / 5), some 1704074400, some 1704067200⟩,
   ⟨some (227 / 5), some 1704070800, some 1704067200⟩,
   ⟨some 500, some 1704078000, some 1704067200⟩]

lemma floor_227_5 : (⌊(227 / 5 : Rat)⌋ : Int) = 45 := by
  norm_num [Int.floor_eq_iff]

lemma floor_758_5 : (⌊(758 / 5 : Rat)⌋ : Int) = 151 := by
  norm_num [Int.floor_eq_iff]

lemma roundHalfEven_227_5 : roundHalfEven (227 / 5) = 45 := by
  simp only [roundHalfEven, floor_227_5]
  norm_num

lemma roundHalfEven_758_5 : roundHalfEven (758 / 5) = 152 := by
  simp only [roundHalfEven, floor_758_5]
  norm_num

lemma roundHalfEven_500 : roundHalfEven 500 = 500 := by
  simp only [roundHalfEven]
  norm_num

/-- C6: the scenario normalizes to integer AQI [45, 152, 500] with
categories ["Good", "Unhealthy", "Hazardous"], ordered by ascending
forecast_time_utc. -/
theorem scenario_normalizes :
    (normalizeSeries scenarioRows).map (fun r => (r.us_aqi, r.category)) =
      [(45, "Good"), (152, "Unhealthy"), (500, "Hazardous")] ∧
    (normalizeSeries scenarioRows).map (fun r => r.forecast_date_utc) =
      [some 1704070800, some 1704074400, some 1704078000] := by
  have hs : normalizeSeries scenarioRows =
      [processRow ⟨some (227 / 5), some 1704070800, some 1704067200⟩,
       processRow ⟨some (758 / 5), some 1704074400, some 1704067200⟩,
       processRow ⟨some 500, some 1704078000, some 1704067200⟩] := by
    simp +decide only [normalizeSeries, scenarioRows, latestRunSelect,
      latestRunTime, validRunTimes, maxOfList, List.filterMap, List.filter,
      sortByUtc, insertRow, utcKeyLe, max_self, if_true, if_false,
      List.map_cons, List.map_nil]
  rw [hs]
  simp only [processRow, normalizeAqi, roundHalfEven_227_5,
    roundHalfEven_758_5, roundHalfEven_500, List.map]
  constructor <;> simp +decide [aqi_category]

lemma maxOfList_mem {l : List Int} {m : Int} (h : maxOfList l = some m) :
    m ∈ l := by
  induction l with
  | nil => simp [maxOfList] at h
  | cons x xs ih =>
    unfold maxOfList at h
    cases hx : maxOfList xs with
    | none => rw [hx] at h; simp at h; simp [h]
    | some m2 =>
      rw [hx] at h
      simp at h
      rcases max_choice x m2 with hc | hc
      · rw [hc] at h; simp [h]
      · rw [hc] at h; subst h; exact List.mem_cons_of_mem _ (ih hx)

lemma maxOfList_ne_none (x : Int) (xs : List Int) :
    maxOfList (x :: xs) ≠ none := by
  unfold maxOfList
  cases maxOfList xs <;> simp

lemma le_maxOfList (l : List Int) (m x : Int) (h : maxOfList l = some m)
    (hx : x ∈ l) : x ≤ m := by
  induction l generalizing m with
  | nil => simp at hx
  | cons y ys ih =>
    unfold maxOfList at h
    cases hy : maxOfList ys with
    | none =>
      rw [hy] at h
      simp at h
      have hys : ys = [] := by
        cases ys with
        | nil => rfl
        | cons z zs => exact absurd hy (maxOfList_ne_none z zs)
      subst hys
      simp at hx
      omega
    | some m2 =>
      rw [hy] at h
      simp at h
      subst h
      rcases List.mem_cons.mp hx with rfl | hmem
      · exact le_max_left x m2
      · exact le_trans (ih m2 hy hmem) (le_max_right y m2)

lemma maxOfList_all_eq {l : List Int} {m : Int} (hne : l ≠ [])
    (hall : ∀ x ∈ l, x = m) : maxOfList l = some m := by
  induction l with
  | nil => simp at hne
  | cons x xs ih =>
    have hx : x = m := hall x (List.mem_cons_self x xs)
    unfold maxOfList
    cases hxs : maxOfList xs with
    | none => simp [hx]
    | some m2 =>
      have : m2 = m := hall m2 (List.mem_cons_of_mem x (maxOfList_mem hxs))
      simp [hx, this]

/-- C5: with at least one valid prediction-run time present (maximum m),
latest-run selection returns exactly the rows whose run time equals m; a
row-set already consisting only of latest-run rows is returned unchanged;
and the selection is idempotent. -/
theorem latestRunSelect_spec (rows : List CanonRow) (m : Int)
    (h : latestRunTime rows = some m) :
    (∀ r, r ∈ latestRunSelect rows ↔ (r ∈ rows ∧ r.prediction_time = some m)) ∧
    ((∀ r ∈ rows, r.prediction_time = some m) → latestRunSelect rows = rows) ∧
    latestRunSelect (latestRunSelect rows) = latestRunSelect rows := by
  have hsel : latestRunSelect rows =
      rows.filter (fun r => r.prediction_time == some m) := by
    unfold latestRunSelect
    rw [h]
  refine ⟨?_, ?_, ?_⟩
  · intro r
    rw [hsel, List.mem_filter]
    simp
  · intro hall
    rw [hsel]
    apply List.filter_eq_self.mpr
    intro r hr
    simp [hall r hr]
  · -- the filtered row-set still has maximum run time m
    obtain ⟨r0, hr0mem, hr0⟩ : ∃ r ∈ rows, r.prediction_time = some m := by
      have hm : m ∈ validRunTimes rows := maxOfList_mem h
      unfold validRunTimes at hm
      rcases List.mem_filterMap.mp hm with ⟨r, hr, he⟩
      exact ⟨r, hr, he⟩
    have hmemf : r0 ∈ rows.filter (fun r => r.prediction_time == some m) := by
      rw [List.mem_filter]
      simp [hr0mem, hr0]
    have hne : rows.filter (fun r => r.prediction_time == some m) ≠ [] := by
      intro hnil
      rw [hnil] at hmemf
      simp at hmemf
    have hmax2 : latestRunTime
        (rows.filter (fun r => r.prediction_time == some m)) = some m := by
      unfold latestRunTime
      apply maxOfList_all_eq
      · intro hnil
        unfold validRunTimes at hnil
        have : r0.prediction_time = none := by
          have := List.filterMap_eq_nil_iff.mp hnil r0 hmemf
          cases hc : r0.prediction_time <;> simp [hc] at this ⊢
        rw [hr0] at this
        exact Option.noConfusion this
      · intro x hx
        unfold validRunTimes at hx
        rcases List.mem_filterMap.mp hx with ⟨r, hr, he⟩
        have := (List.mem_filter.mp hr).2
        simp at this
        rw [this] at he
        exact (Option.some_inj.mp he).symm
    rw [hsel]
    unfold latestRunSelect
    rw [hmax2]
    apply List.filter_eq_self.mpr
    intro r hr
    exact (List.mem_filter.mp hr).2

/-- Witness for C5 on a two-run row-set with maximum run time 5. -/
theorem latestRunSelect_spec_witness :
    (CanonRow.mk none none (some 5)) ∈
      latestRunSelect [CanonRow.mk none none (some 5),
                       CanonRow.mk none none (some 3)] :=
  ((latestRunSelect_spec
      [CanonRow.mk none none (some 5), CanonRow.mk none none (some 3)] 5
      (by decide)).1 (CanonRow.mk none none (some 5))).mpr
    ⟨List.mem_cons_self _ _, rfl⟩

/-- The `time_diff` column of src/main.py line 353:
`(latest_preds['forecast_date_pkt'] - now).abs()`; a NaT forecast time
yields NaT (`none`). -/
def absDiffs (now : Int) (rows : List ForecastRow) : List (Option Int) :=
  rows.map (fun r => r.forecast_date_pkt.map (fun t => |t - now|))

/-- Embeds pandas `Series.idxmin()` (src/main.py, line 354): the first
position holding the minimum value, skipping NaN entries; `none` when no
entry is valid.  Returns the position together with the minimum. -/
def idxminAux : List (Option Int) → Option (Nat × Int)
  | [] => none
  | none :: xs => (idxminAux xs).map (fun p => (p.1 + 1, p.2))
  | some x :: xs =>
    match idxminAux xs with
    | none => some (0, x)
    | some (j, m) => if x ≤ m then some (0, x) else some (j + 1, m)

/-- Embeds the nearest-now lookup of src/main.py lines 350-355: build the
absolute time differences to `now`, take `idxmin`, return that row. -/
def nearestNow (now : Int) (rows : List ForecastRow) : Option ForecastRow :=
  match idxminAux (absDiffs now rows) with
  | none => none
  | some p => rows[p.1]?

lemma idxminAux_none (l : List (Option Int)) (h : idxminAux l = none) :
    ∀ (i : Nat) (y : Int), l[i]? ≠ some (some y) := by
  induction l with
  | nil => intro i y; simp
  | cons a l ih =>
    cases a with
    | none =>
      simp only [idxminAux] at h
      have hl : idxminAux l = none := by
        cases hx : idxminAux l with
        | none => rfl
        | some p => rw [hx] at h; simp at h
      intro i y
      cases i with
      | zero => simp
      | succ i =>
        rw [List.getElem?_cons_succ]
        exact ih hl i y
    | some x =>
      simp only [idxminAux] at h
      cases hx : idxminAux l with
      | none => rw [hx] at h; simp at h
      | some p =>
        obtain ⟨j, m⟩ := p
        rw [hx] at h
        by_cases hxm : x ≤ m <;> simp [hxm] at h

lemma idxminAux_spec (l : List (Option Int)) (j : Nat) (m : Int)
    (h : idxminAux l = some (j, m)) :
    l[j]? = some (some m) ∧
    (∀ (i : Nat) (x : Int), l[i]? = some (some x) → m ≤ x) ∧
    (∀ (i : Nat) (x : Int), l[i]? = some (some x) → i < j → m < x) := by
  induction l generalizing j m with
  | nil => simp [idxminAux] at h
  | cons a l ih =>
    cases a with
    | none =>
      unfold idxminAux at h
      cases hl : idxminAux l with
      | none => rw [hl] at h; simp at h
      | some p =>
        obtain ⟨j0, m0⟩ := p
        rw [hl] at h
        change some (j0 + 1, m0) = some (j, m) at h
        injection h with h
        injection h with hj hm
        subst hj; subst hm
        obtain ⟨h1, h2, h3⟩ := ih j0 m0 hl
        refine ⟨?_, ?_, ?_⟩
        · rw [List.getElem?_cons_succ]
          exact h1
        · intro i x hi
          cases i with
          | zero => simp at hi
          | succ i =>
            rw [List.getElem?_cons_succ] at hi
            exact h2 i x hi
        · intro i x hi hij
          cases i with
          | zero => simp at hi
          | succ i =>
            rw [List.getElem?_cons_succ] at hi
            exact h3 i x hi (by omega)
    | some x =>
      unfold idxminAux at h
      cases hl : idxminAux l with
      | none =>
        rw [hl] at h
        change some (0, x) = some (j, m) at h
        injection h with h
        injection h with hj hm
        subst hj; subst hm
        refine ⟨by simp, ?_, fun i y hi hij => absurd hij (by omega)⟩
        intro i y hi
        cases i with
        | zero => simp at hi; omega
        | succ i =>
          rw [List.getElem?_cons_succ] at hi
          exact absurd hi (idxminAux_none l hl i y)
      | some p =>
        obtain ⟨j0, m0⟩ := p
        rw [hl] at h
        change (if x ≤ m0 then some (0, x) else some (j0 + 1, m0)) = some (j, m) at h
        obtain ⟨h1, h2, h3⟩ := ih j0 m0 hl
        by_cases hxm : x ≤ m0
        · rw [if_pos hxm] at h
          injection h with h
          injection h with hj hm
          subst hj; subst hm
          refine ⟨by simp, ?_, fun i y hi hij => absurd hij (by omega)⟩
          intro i y hi
          cases i with
          | zero => simp at hi; omega
          | succ i =>
            rw [List.getElem?_cons_succ] at hi
            exact le_trans hxm (h2 i y hi)
        · rw [if_neg hxm] at h
          injection h with h
          injection h with hj hm
          subst hj; subst hm
          push_neg at hxm
          refine ⟨?_, ?_, ?_⟩
          · rw [List.getElem?_cons_succ]
            exact h1
          · intro i y hi
            cases i with
            | zero => simp at hi; omega
            | succ i =>
              rw [List.getElem?_cons_succ] at hi
              exact h2 i y hi
          · intro i y hi hij
            cases i with
            | zero => simp at hi; omega
            | succ i =>
              rw [List.getElem?_cons_succ] at hi
              exact h3 i y hi (by omega)

/-- A minimal processed row with a valid PKT forecast time `t`, used for
the concrete nearest-now checks. -/
def pktRow (t : Int) : ForecastRow :=
  { us_aqi := 0, category := "Good", color := "#00E400",
    forecast_date_utc := some t, forecast_date_pkt := some t,
    prediction_time := none }

/-- Forecast rows at local times 10:00, 11:00 and 12:00 (as minutes of the
day: 600, 660, 720). -/
def threeHourSeries : List ForecastRow := [pktRow 600, pktRow 660, pktRow 720]

/-- C7: on a non-empty series with valid, ascending PKT forecast times,
the nearest-now lookup returns a row of the series minimizing the absolute
difference to `now`, and on an exact tie the row with the earlier forecast
time; in particular, on rows at 10:00/11:00/12:00, both now = 11:29 (689)
and the exact tie now = 11:30 (690) select the 11:00 row. -/
theorem nearestNow_spec (rows : List ForecastRow) (now : Int)
    (hne : rows ≠ [])
    (hall : ∀ r ∈ rows, r.forecast_date_pkt ≠ none)
    (hsort : List.Pairwise
      (fun a b => utcKeyLe a.forecast_date_pkt b.forecast_date_pkt = true) rows) :
    (∃ r t, nearestNow now rows = some r ∧ r ∈ rows ∧
      r.forecast_date_pkt = some t ∧
      (∀ s ∈ rows, ∀ u, s.forecast_date_pkt = some u →
        |t - now| ≤ |u - now|) ∧
      (∀ s ∈ rows, ∀ u, s.forecast_date_pkt = some u →
        |u - now| = |t - now| → t ≤ u)) ∧
    nearestNow 689 threeHourSeries = some (pktRow 660) ∧
    nearestNow 690 threeHourSeries = some (pktRow 660) := by
  refine ⟨?_, by decide, by decide⟩
  obtain ⟨r0, rest, rfl⟩ : ∃ r0 rest, rows = r0 :: rest := by
    cases rows with
    | nil => exact absurd rfl hne
    | cons a l => exact ⟨a, l, rfl⟩
  obtain ⟨t0, ht0⟩ : ∃ t0, r0.forecast_date_pkt = some t0 := by
    cases hc : r0.forecast_date_pkt with
    | none => exact absurd hc (hall r0 (List.mem_cons_self r0 rest))
    | some t => exact ⟨t, rfl⟩
  have hd0 : (absDiffs now (r0 :: rest))[0]? = some (some |t0 - now|) := by
    simp [absDiffs, ht0]
  obtain ⟨⟨j, m⟩, hidx⟩ : ∃ p, idxminAux (absDiffs now (r0 :: rest)) = some p := by
    cases hx : idxminAux (absDiffs now (r0 :: rest)) with
    | none => exact absurd hd0 (idxminAux_none _ hx 0 _)
    | some p => exact ⟨p, rfl⟩
  obtain ⟨h1, h2, h3⟩ := idxminAux_spec _ j m hidx
  have hmap : ∀ i : Nat, (absDiffs now (r0 :: rest))[i]? =
      ((r0 :: rest)[i]?).map (fun r => r.forecast_date_pkt.map (fun t => |t - now|)) := by
    intro i
    simp only [absDiffs, List.getElem?_map]
  rw [hmap j] at h1
  obtain ⟨r, hrj, t, ht, htm⟩ : ∃ r, (r0 :: rest)[j]? = some r ∧
      ∃ t, r.forecast_date_pkt = some t ∧ |t - now| = m := by
    cases hc : (r0 :: rest)[j]? with
    | none => rw [hc] at h1; simp at h1
    | some r =>
      rw [hc] at h1
      simp at h1
      exact ⟨r, rfl, h1⟩
  have hjlen : j < (r0 :: rest).length := by
    by_contra hge
    rw [List.getElem?_eq_none (by omega)] at hrj
    exact Option.noConfusion hrj
  refine ⟨r, t, ?_, ?_, ht, ?_, ?_⟩
  · unfold nearestNow
    rw [hidx]
    exact hrj
  · obtain ⟨hlt, e⟩ := List.getElem?_eq_some.mp hrj
    exact e ▸ List.getElem_mem hlt
  · intro s hs u hu
    obtain ⟨i, hilen, hie⟩ := List.mem_iff_getElem.mp hs
    have : (absDiffs now (r0 :: rest))[i]? = some (some |u - now|) := by
      rw [hmap i, List.getElem?_eq_getElem hilen, hie]
      simp [hu]
    rw [htm]
    exact h2 i _ this
  · intro s hs u hu hequ
    obtain ⟨i, hilen, hie⟩ := List.mem_iff_getElem.mp hs
    have hdi : (absDiffs now (r0 :: rest))[i]? = some (some |u - now|) := by
      rw [hmap i, List.getElem?_eq_getElem hilen, hie]
      simp [hu]
    have hji : j ≤ i := by
      by_contra hlt
      have := h3 i _ hdi (by omega)
      omega
    rcases Nat.lt_or_ge j i with hlt | hge
    · have hpair := List.pairwise_iff_getElem.mp hsort j i hjlen hilen hlt
      have hrg : (r0 :: rest)[j] = r := by
        rw [List.getElem?_eq_getElem hjlen] at hrj
        exact Option.some_inj.mp hrj
      rw [hrg, hie] at hpair
      rw [ht, hu] at hpair
      simpa [utcKeyLe] using hpair
    · have hij : i = j := by omega
      subst hij
      have hsr : s = r := by
        rw [List.getElem?_eq_getElem hilen, hie] at hrj
        exact Option.some_inj.mp hrj
      rw [hsr, ht] at hu
      have := Option.some_inj.mp hu
      omega

/-- Witness for C7: the tie at now = 690 on the 10:00/11:00/12:00 series. -/
theorem nearestNow_spec_witness :
    ∃ r t, nearestNow 690 threeHourSeries = some r ∧ r ∈ threeHourSeries ∧
      r.forecast_date_pkt = some t ∧
      (∀ s ∈ threeHourSeries, ∀ u, s.forecast_date_pkt = some u →
        |t - 690| ≤ |u - 690|) ∧
      (∀ s ∈ threeHourSeries, ∀ u, s.forecast_date_pkt = some u →
        |u - 690| = |t - 690| → t ≤ u) :=
  (nearestNow_spec threeHourSeries 690 (by decide) (by decide) (by decide)).1

/-- The current-AQI stage of `main` (src/main.py, lines 342-355): when
`total_predictions == 0` the function returns early (line 342-344) without
ever evaluating the nearest-now lookup; otherwise, if the PKT column is
present, `idxmin` is taken, which fails when it finds no valid entry. -/
def currentAqiStage (hasPkt : Bool) (now : Int) (rows : List ForecastRow) :
    Except String (Option ForecastRow) :=
  if rows.length = 0 then Except.ok none
  else if hasPkt then
    match nearestNow now rows with
    | some r => Except.ok (some r)
    | none => Except.error "attempt to get argmin of an empty sequence"
  else Except.ok none

/-- C10: with zero rows the dashboard returns before the nearest-now
computation, so an idxmin over an empty time-difference column is
unreachable: any idxmin failure can only arise from a non-empty row-set
(whose time-difference column is also non-empty). -/
theorem currentAqiStage_empty_safe (hasPkt : Bool) (now : Int)
    (rows : List ForecastRow) :
    (rows = [] → currentAqiStage hasPkt now rows = Except.ok none) ∧
    (∀ msg, currentAqiStage hasPkt now rows = Except.error msg →
      rows ≠ [] ∧ absDiffs now rows ≠ []) := by
  constructor
  · intro h
    subst h
    rfl
  · intro msg hmsg
    by_cases h : rows = []
    · subst h
      simp [currentAqiStage] at hmsg
    · refine ⟨h, ?_⟩
      intro habs
      cases hc : rows with
      | nil => exact h hc
      | cons a l =>
        rw [hc] at habs
        simp [absDiffs] at habs

/-- Witness for C10 on the empty row-set. -/
theorem currentAqiStage_empty_safe_witness :
    currentAqiStage true 0 [] = Except.ok none :=
  (currentAqiStage_empty_safe true 0 []).1 rfl

/-- Bool test that the char list `p` is a leading segment of `s`. -/
def prefixOfList : List Char → List Char → Bool
  | [], _ => true
  | _ :: _, [] => false
  | a :: as, b :: bs => a == b && prefixOfList as bs

/-- Bool test that the char list `p` occurs contiguously inside `s`; this
is Python's `p in s` on strings. -/
def infixOfList (p : List Char) : List Char → Bool
  | [] => prefixOfList p []
  | b :: bs => prefixOfList p (b :: bs) || infixOfList p bs

/-- The lowercased characters of `s` (Python's `s.lower()` for the ASCII
column names at hand). -/
def lowerChars (s : String) : List Char := s.toList.map Char.toLower

/-- Python's `pat in s.lower()` (src/main.py lines 201-217), for a
lowercase pattern literal `pat`. -/
def containsSub (s pat : String) : Bool := infixOfList pat.toList (lowerChars s)

/-- Embeds the per-column rename of src/main.py lines 205-217: the first
matching rule wins, unmatched columns keep their name. -/
def colMap (c : String) : String :=
  if containsSub c "datetime_utc" then "forecast_date_utc"
  else if containsSub c "datetime" && !containsSub c "utc" then "forecast_date_local"
  else if containsSub c "predicted_us_aqi" then "us_aqi"
  else if containsSub c "prediction_date" then "prediction_time"
  else if containsSub c "model_version" then "model_version"
  else if containsSub c "forecast_hour" then "forecast_hour"
  else c

/-- `aqi_cols` of src/main.py line 202: original columns whose lowercased
name contains "aqi". -/
def aqiCols (cols : List String) : List String :=
  cols.filter (fun c => containsSub c "aqi")

/-- `datetime_cols` of src/main.py line 201. -/
def datetimeCols (cols : List String) : List String :=
  cols.filter (fun c => containsSub c "datetime" || containsSub c "time")

/-- The ways the column-canonicalization part of `main` can fail: an
uncaught pandas KeyError from the fallback indexing at src/main.py lines
224/227 (the indexed original column name was renamed away at line 220),
or the explicit no-AQI-column error-and-return at lines 269-271. -/
inductive SchemaFailure where
  | keyError (col : String)
  | noAqiColumn
deriving Repr, DecidableEq

/-- The fallback of src/main.py lines 223-224: when no column named
`us_aqi` exists and some original column is AQI-like, the code indexes
`df[aqi_cols[0]]`; `aqi_cols` holds pre-rename names, so this raises
KeyError when that original column was renamed away at line 220. -/
def withAqiCol (renamed : List String) (cols : List String) :
    Except SchemaFailure (List String) :=
  if "us_aqi" ∈ renamed then Except.ok renamed
  else
    match aqiCols cols with
    | [] => Except.ok renamed
    | c :: _ =>
      if c ∈ renamed then Except.ok (renamed ++ ["us_aqi"])
      else Except.error (SchemaFailure.keyError c)

/-- The fallback of src/main.py lines 226-227 for `forecast_date_utc`,
indexing `df[datetime_cols[0]]` with the same KeyError hazard. -/
def withUtcCol (cur : List String) (cols : List String) :
    Except SchemaFailure (List String) :=
  if "forecast_date_utc" ∈ cur then Except.ok cur
  else
    match datetimeCols cols with
    | [] => Except.ok cur
    | c :: _ =>
      if c ∈ cur then Except.ok (cur ++ ["forecast_date_utc"])
      else Except.error (SchemaFailure.keyError c)

/-- The canonicalized column set after the rename of line 220 and the two
fallbacks of lines 223-227; an uncaught KeyError aborts `main`. -/
def canonCols (cols : List String) : Except SchemaFailure (List String) :=
  match withAqiCol (cols.map colMap) cols with
  | Except.error e => Except.error e
  | Except.ok cur => withUtcCol cur cols

/-- The check of src/main.py lines 265-271: `main` shows an error and
returns when no `us_aqi` column could be established. -/
def mainSchemaCheck (cs : List String) : Except SchemaFailure Unit :=
  if "us_aqi" ∈ cs then Except.ok ()
  else Except.error SchemaFailure.noAqiColumn

/-- The schema outcome of `main` (src/main.py lines 197-227 and 265-271):
a KeyError from the fallbacks aborts the call, otherwise the no-AQI-column
check runs; no forecast-time check exists. -/
def mainSchemaResult (cols : List String) : Except SchemaFailure Unit :=
  match canonCols cols with
  | Except.error e => Except.error e
  | Except.ok cs => mainSchemaCheck cs

lemma prefixOfList_iff (p s : List Char) : prefixOfList p s = true ↔ p <+: s := by
  induction p generalizing s with
  | nil => simp [prefixOfList]
  | cons a as ih =>
    cases s with
    | nil => simp [prefixOfList, List.prefix_nil]
    | cons b bs =>
      rw [List.cons_prefix_cons]
      unfold prefixOfList
      rw [Bool.and_eq_true, beq_iff_eq, ih]

lemma infixOfList_iff (p s : List Char) : infixOfList p s = true ↔ p <:+: s := by
  induction s with
  | nil => simp [infixOfList, prefixOfList_iff, List.prefix_nil, List.infix_nil]
  | cons b bs ih =>
    simp [infixOfList, prefixOfList_iff, ih, List.infix_cons_iff]

lemma colMap_eq_us_aqi (c : String) (h : colMap c = "us_aqi") :
    containsSub c "aqi" = true := by
  unfold colMap at h
  split_ifs at h with h1 h2 h3 h4 h5 h6
  · exact absurd h (by decide)
  · exact absurd h (by decide)
  · have hinf : "predicted_us_aqi".toList <:+: lowerChars c :=
      (infixOfList_iff _ _).mp h3
    have haqi : "aqi".toList <:+: "predicted_us_aqi".toList := by decide
    exact (infixOfList_iff _ _).mpr (haqi.trans hinf)
  · exact absurd h (by decide)
  · exact absurd h (by decide)
  · exact absurd h (by decide)
  · subst h
    decide

lemma withUtcCol_ok_not_us_aqi (cur cols cs : List String)
    (hcur : "us_aqi" ∉ cur) (h : withUtcCol cur cols = Except.ok cs) :
    "us_aqi" ∉ cs := by
  unfold withUtcCol at h
  split_ifs at h with hfd
  · injection h with h
    rw [← h]
    exact hcur
  · cases hdt : datetimeCols cols with
    | nil =>
      rw [hdt] at h
      have h' : Except.ok (ε := SchemaFailure) cur = Except.ok cs := h
      injection h' with h'
      rw [← h']
      exact hcur
    | cons c rest =>
      rw [hdt] at h
      have h' : (if c ∈ cur then Except.ok (ε := SchemaFailure) (cur ++ ["forecast_date_utc"])
          else Except.error (SchemaFailure.keyError c)) = Except.ok cs := h
      by_cases hc : c ∈ cur
      · rw [if_pos hc] at h'
        injection h' with h'
        rw [← h']
        intro hmem
        rcases List.mem_append.mp hmem with hmem | hmem
        · exact hcur hmem
        · simp at hmem
      · rw [if_neg hc] at h'
        exact Except.noConfusion h'

/-- C4 counterexample: a row-set whose only column is `predicted_us_aqi`
has no forecast-time candidate at all, yet canonicalization succeeds with
no SchemaError-style failure, refuting that `forecast_time_utc` is
mandatory. -/
theorem missing_time_column_no_error :
    mainSchemaResult ["predicted_us_aqi"] = Except.ok () ∧
    datetimeCols ["predicted_us_aqi"] = [] ∧
    canonCols ["predicted_us_aqi"] = Except.ok ["us_aqi"] :=
  ⟨rfl, rfl, rfl⟩

/-- C4 amended: a row-set with no AQI-like candidate column never
canonicalizes successfully (the AQI field is mandatory), but the failure
mode is either the explicit no-AQI error-and-return or an uncaught
KeyError from the pre-rename fallback indexing; the forecast-time field is
not mandatory; an AQI-like column is not sufficient either: when the first
AQI-like (or first time-like) original column name was renamed away,
lines 224/227 raise KeyError, as with sole column `aqi_datetime_utc` or
with `predicted_us_aqi` plus `model_version_time`; when the rename itself
yields both `us_aqi` and `forecast_date_utc`, canonicalization succeeds;
and with no valid prediction-run time the whole row-set is treated as one
run. -/
theorem mainSchema_aqi_mandatory (cols : List String) (rows : List CanonRow) :
    (mainSchemaResult cols = Except.ok () → aqiCols cols ≠ []) ∧
    (("us_aqi" ∈ cols.map colMap ∧ "forecast_date_utc" ∈ cols.map colMap) →
      mainSchemaResult cols = Except.ok ()) ∧
    mainSchemaResult ["aqi_datetime_utc"] =
      Except.error (SchemaFailure.keyError "aqi_datetime_utc") ∧
    mainSchemaResult ["predicted_us_aqi", "model_version_time"] =
      Except.error (SchemaFailure.keyError "model_version_time") ∧
    (validRunTimes rows = [] → latestRunSelect rows = rows) := by
  refine ⟨?_, ?_, rfl, rfl, ?_⟩
  · intro hok hnil
    have hren : "us_aqi" ∉ cols.map colMap := by
      intro hmem
      rcases List.mem_map.mp hmem with ⟨c, hc, he⟩
      have hsub := colMap_eq_us_aqi c he
      have : c ∈ aqiCols cols := List.mem_filter.mpr ⟨hc, hsub⟩
      rw [hnil] at this
      simp at this
    have hwa : withAqiCol (cols.map colMap) cols = Except.ok (cols.map colMap) := by
      unfold withAqiCol
      rw [if_neg hren, hnil]
    have hcanon : canonCols cols = withUtcCol (cols.map colMap) cols := by
      unfold canonCols
      rw [hwa]
    cases hwu : withUtcCol (cols.map colMap) cols with
    | error e =>
      unfold mainSchemaResult at hok
      rw [hcanon, hwu] at hok
      have hok' : Except.error (α := Unit) e = Except.ok () := hok
      exact Except.noConfusion hok'
    | ok cs =>
      unfold mainSchemaResult at hok
      rw [hcanon, hwu] at hok
      have hok' : mainSchemaCheck cs = Except.ok () := hok
      unfold mainSchemaCheck at hok'
      rw [if_neg (withUtcCol_ok_not_us_aqi _ cols cs hren hwu)] at hok'
      exact Except.noConfusion hok'
  · intro h
    have hwa : withAqiCol (cols.map colMap) cols = Except.ok (cols.map colMap) := by
      unfold withAqiCol
      rw [if_pos h.1]
    have hwu : withUtcCol (cols.map colMap) cols = Except.ok (cols.map colMap) := by
      unfold withUtcCol
      rw [if_pos h.2]
    have hcanon : canonCols cols = Except.ok (cols.map colMap) := by
      unfold canonCols
      rw [hwa]
      exact hwu
    unfold mainSchemaResult
    rw [hcanon]
    show mainSchemaCheck (cols.map colMap) = Except.ok ()
    unfold mainSchemaCheck
    rw [if_pos h.1]
  · intro h
    unfold latestRunSelect latestRunTime
    rw [h]
    rfl

/-- Witness for the amended C4: a two-column row-set whose rename yields
both canonical columns succeeds, and the empty row-set is one run. -/
theorem mainSchema_aqi_mandatory_witness :
    mainSchemaResult ["predicted_us_aqi", "datetime_utc"] = Except.ok () ∧
    latestRunSelect [] = [] :=
  ⟨(mainSchema_aqi_mandatory ["predicted_us_aqi", "datetime_utc"] []).2.1
    (by decide),
   (mainSchema_aqi_mandatory ["predicted_us_aqi", "datetime_utc"] []).2.2.2.2
    rfl⟩

/-- Modelled from the spec: src/main.py contains no Time-Window Filter;
§4.5 of the specification describes it as returning the inclusive
sub-sequence with `start ≤ forecast_time_local ≤ end`, swapping the two
bounds first when `start > end`. -/
def timeWindowFilter (start stop : Int) (rows : List ForecastRow) :
    List ForecastRow :=
  let lo := if stop < start then stop else start
  let hi := if stop < start then start else stop
  rows.filter (fun r =>
    match r.forecast_date_pkt with
    | some t => decide (lo ≤ t) && decide (t ≤ hi)
    | none => false)

/-- C9: filtering with reversed bounds yields exactly the same
sub-sequence, because reversed bounds are swapped before filtering. -/
theorem timeWindowFilter_reversed (start stop : Int) (rows : List ForecastRow) :
    timeWindowFilter stop start rows = timeWindowFilter start stop rows := by
  unfold timeWindowFilter
  rcases lt_trichotomy start stop with h | h | h
  · rw [if_pos h, if_pos h, if_neg (by omega), if_neg (by omega)]
  · subst h
    rfl
  · rw [if_neg (by omega), if_neg (by omega), if_pos h, if_pos h]

end AqiDashboard
